import Mathlib

/-!
Verification of opendlv-video-annotation-opencv.

A shallow embedding of `src/opendlv-video-annotation-opencv.cpp` and the
properties of its pointer state machine, of the timestamp decrement in the
send branch of the main loop, and of the exit code of `main`.

The three threads of the program (main loop, mouse callback, image callback)
share two groups of variables, each behind its own mutex.  Every critical
section is one atomic step of the model, and a run is a list of such steps in
the order in which the locks were taken.
-/

namespace OpendlvVideoAnnotation

/-! ## Data -/

/-- The least value of an `int32_t`. -/
def INT32_MIN : Int := -2147483648

/-- The greatest value of an `int32_t`. -/
def INT32_MAX : Int := 2147483647

/-- The value that a signed 32-bit subtraction leaves in an `int32_t` in the
compiled program: the mathematical result reduced modulo 2^32 into
`INT32_MIN..INT32_MAX`. -/
def wrapInt32 (v : Int) : Int := (v + 2147483648) % 4294967296 - 2147483648

/-- Modelled from the spec: `cluon::data::TimeStamp` is declared in
`cluon-complete.hpp`, which is not part of the sources; the spec gives it as
`ObservedTimestamp {seconds, microseconds}`, two signed machine integers.  Both
fields are taken as `int32_t`, the type libcluon gives them: a field holds a
value within `INT32_MIN..INT32_MAX`, and the results of `seconds()-1` and
`microseconds()-1` are stored through `wrapInt32`. -/
structure TimeStamp where
  seconds : Int
  microseconds : Int
deriving DecidableEq, Repr

/-- Modelled from the spec: `opendlv::logic::sensation::Direction` is declared
in `opendlv-standard-message-set.hpp`, which is not part of the sources; the
spec gives the payload as `{x: uint16 (azimuth), y: uint16 (zenith)}`.  The
setters are called with the `uint16_t` globals `g_x` and `g_y` (line 120), whose
values convert to the `float` fields of the message without rounding; the
fields hold that value. -/
structure Direction where
  azimuthAngle : Nat
  zenithAngle : Nat
deriving DecidableEq, Repr

/-- Modelled from the spec: the `Move` event kind of the display collaborator;
`cv::EVENT_MOUSEMOVE` of `cv::MouseEventTypes` (OpenCV header, not part of the
sources). -/
def EVENT_MOUSEMOVE : Int := 0

/-- Modelled from the spec: the `ButtonDown` event kind of the display
collaborator; `cv::EVENT_LBUTTONDOWN` of `cv::MouseEventTypes` (OpenCV header,
not part of the sources). -/
def EVENT_LBUTTONDOWN : Int := 1

/-- Modelled from the spec: the `ButtonUp` event kind of the display
collaborator; `cv::EVENT_LBUTTONUP` of `cv::MouseEventTypes` (OpenCV header,
not part of the sources). -/
def EVENT_LBUTTONUP : Int := 4

/-- Conversion of an `int` to `uint16_t`, as in the assignments `g_x = x` and
`g_y = y`: the value modulo 2^16. -/
def toUInt16 (v : Int) : Nat := (v % 65536).toNat

/-- The variables of the program that outlive one statement: the globals
`g_updateCoords`, `g_x`, `g_y` (behind `g_dataMutex`), `lastSampleTimeStamp`
(behind `lastSampleTimeStampMutex`), the locals `send` and `d` of the block at
lines 111-133, and the list of the calls `od4.send(d, lastSampleTimeStamp)` made
so far, oldest first. -/
structure State where
  g_updateCoords : Bool
  g_x : Nat
  g_y : Nat
  lastSampleTimeStamp : TimeStamp
  send : Bool
  d : Direction
  sent : List (Direction × TimeStamp)
deriving DecidableEq, Repr

/-- The state when the main loop is entered: the globals as initialised at
lines 30-32, `lastSampleTimeStamp{}` of line 84, nothing sent. -/
def initialState : State :=
  { g_updateCoords := false, g_x := 0, g_y := 0,
    lastSampleTimeStamp := { seconds := 0, microseconds := 0 },
    send := false, d := { azimuthAngle := 0, zenithAngle := 0 }, sent := [] }

/-! ## The callbacks and the loop body -/

/-- The mouse callback, lines 34-47. -/
def onMouse (st : State) (event x y : Int) : State :=
  let st1 := if event = EVENT_LBUTTONDOWN then { st with g_updateCoords := true } else st
  let st2 := if event = EVENT_LBUTTONUP then { st1 with g_updateCoords := false } else st1
  if st2.g_updateCoords then { st2 with g_x := toUInt16 x, g_y := toUInt16 y } else st2

/-- The image callback, lines 85-88: the sample time stamp of the envelope
replaces the stored one. -/
def onNewImage (st : State) (sampleTimeStamp : TimeStamp) : State :=
  { st with lastSampleTimeStamp := sampleTimeStamp }

/-- Lines 112-122 of the loop body: fresh locals `send` and `d`, then the
critical section that reads the pointer globals. -/
def readPointer (st : State) : State :=
  let st0 := { st with send := false, d := { azimuthAngle := 0, zenithAngle := 0 } }
  if st0.g_updateCoords then
    { st0 with send := true, d := { azimuthAngle := st0.g_x, zenithAngle := st0.g_y } }
  else st0

/-- Lines 125-130: the stored time stamp moved back by one microsecond, each
subtraction in 32-bit signed arithmetic. -/
def decrementTimeStamp (ts : TimeStamp) : TimeStamp :=
  if ts.microseconds = 0 then
    { seconds := wrapInt32 (ts.seconds - 1), microseconds := 999999 }
  else
    { ts with microseconds := wrapInt32 (ts.microseconds - 1) }

/-- Lines 123-132 of the loop body: when `send` is set, the stored time stamp
is decremented in place and `d` is sent with it.  The local `send` ends with
the block. -/
def sendBranch (st : State) : State :=
  if st.send then
    let ts := decrementTimeStamp st.lastSampleTimeStamp
    { st with lastSampleTimeStamp := ts, sent := st.sent ++ [(st.d, ts)], send := false }
  else st

/-- One pass through lines 111-133 with no callback between its two critical
sections. -/
def loopIteration (st : State) : State := sendBranch (readPointer st)

/-- A number of consecutive passes through the loop body, no callback in
between. -/
def loopIterations : Nat → State → State
  | 0, st => st
  | n + 1, st => loopIterations n (loopIteration st)

/-- One atomic step of the program: a delivery of the mouse callback, a
delivery of the image callback, or one of the two critical sections of the
loop body. -/
inductive Action where
  | mouse (event x y : Int)
  | newImage (sampleTimeStamp : TimeStamp)
  | read
  | emit
deriving DecidableEq, Repr

/-- The effect of one step. -/
def step (st : State) : Action → State
  | .mouse event x y => onMouse st event x y
  | .newImage ts => onNewImage st ts
  | .read => readPointer st
  | .emit => sendBranch st

/-- The effect of a list of steps, in order. -/
def run (st : State) (trace : List Action) : State := trace.foldl step st

/-- The time stamps of the calls of `od4.send` made by `n` consecutive loop
iterations from `st`. -/
def emittedTimeStamps (st : State) (n : Nat) : List TimeStamp :=
  ((loopIterations n st).sent.drop st.sent.length).map Prod.snd

/-! ## Order on time stamps -/

/-- Strict lexicographic order on (seconds, microseconds). -/
def TimeStamp.lt (a b : TimeStamp) : Prop :=
  a.seconds < b.seconds ∨ (a.seconds = b.seconds ∧ a.microseconds < b.microseconds)

/-- Lexicographic order on (seconds, microseconds). -/
def TimeStamp.le (a b : TimeStamp) : Prop :=
  a.seconds < b.seconds ∨ (a.seconds = b.seconds ∧ a.microseconds ≤ b.microseconds)

instance (a b : TimeStamp) : Decidable (TimeStamp.lt a b) := by
  unfold TimeStamp.lt; infer_instance

instance (a b : TimeStamp) : Decidable (TimeStamp.le a b) := by
  unfold TimeStamp.le; infer_instance

/-- The time stamp in microseconds. -/
def TimeStamp.total (a : TimeStamp) : Int := a.seconds * 1000000 + a.microseconds

/-- The microseconds field is within 0..999999. -/
def TimeStamp.normalised (a : TimeStamp) : Prop :=
  0 ≤ a.microseconds ∧ a.microseconds ≤ 999999

instance (a : TimeStamp) : Decidable (TimeStamp.normalised a) := by
  unfold TimeStamp.normalised; infer_instance

/-! ## The entry point -/

/-- A pass through the loop body together with the callbacks delivered around
it: those before the pointer globals are read and those between the two
critical sections. -/
structure Frame where
  beforeRead : List Action
  beforeSend : List Action
deriving Repr

/-- The steps of one pass through the loop body. -/
def Frame.actions (f : Frame) : List Action :=
  f.beforeRead ++ [Action.read] ++ f.beforeSend ++ [Action.emit]

/-- White space as skipped by `std::stoi`. -/
def isSpaceChar (c : Char) : Bool := c.toNat = 32 || (9 ≤ c.toNat && c.toNat ≤ 13)

/-- The value of a run of decimal digits. -/
def digitsValue (ds : List Char) : Nat :=
  ds.foldl (fun acc c => 10 * acc + (c.toNat - 48)) 0

/-- The function `std::stoi` of the C++ standard library in base 10: leading
white space, an optional sign, then the longest run of digits; `none` stands
for the exception thrown when there is no digit or the value does not fit an
`int`. -/
def stoi (s : String) : Option Int :=
  let cs := s.toList.dropWhile isSpaceChar
  let signed : Bool × List Char :=
    match cs with
    | '-' :: r => (true, r)
    | '+' :: r => (false, r)
    | r => (false, r)
  let ds := signed.2.takeWhile Char.isDigit
  if ds.isEmpty then none
  else
    let v : Int := if signed.1 then -(digitsValue ds : Int) else (digitsValue ds : Int)
    if v < -2147483648 ∨ 2147483647 < v then none else some v

/-- The result of a run of `main` that returns: the exit code and the calls of
`od4.send` made. -/
structure Exit where
  retCode : Int
  sent : List (Direction × TimeStamp)
deriving DecidableEq, Repr

/-- The member `count` of the map of command line arguments. -/
def count (commandlineArguments : String → Option String) (key : String) : Nat :=
  if (commandlineArguments key).isSome then 1 else 0

/-- The entry point, lines 49-139.  `commandlineArguments` is the map built by
`cluon::getCommandlineArguments`, `valid` tells whether the shared memory of a
given name can be attached, `frames` are the passes through the loop body made
until `od4.isRunning()` turns false.  `none` stands for a run ended by an
exception of `std::stoi`. -/
def main (commandlineArguments : String → Option String) (valid : String → Bool)
    (frames : List Frame) : Option Exit :=
  let retCode : Int := 1
  if count commandlineArguments "cid" = 0 ∨ count commandlineArguments "name" = 0 ∨
      count commandlineArguments "width" = 0 ∨ count commandlineArguments "height" = 0 then
    some { retCode := retCode, sent := [] }
  else do
    let NAME := (commandlineArguments "name").getD ""
    let _WIDTH ← (stoi ((commandlineArguments "width").getD "")).map (fun v => v % 4294967296)
    let _HEIGHT ← (stoi ((commandlineArguments "height").getD "")).map (fun v => v % 4294967296)
    let sent ←
      if valid NAME then do
        let _cid ← (stoi ((commandlineArguments "cid").getD "")).map (fun v => v % 65536)
        pure (run initialState (frames.map Frame.actions).flatten).sent
      else pure []
    let retCode : Int := 0
    some { retCode := retCode, sent := sent }

/-- A command line with the four options of the usage example. -/
def exampleArguments : String → Option String := fun key =>
  if key = "cid" then some "253"
  else if key = "name" then some "img.argb"
  else if key = "width" then some "640"
  else if key = "height" then some "480"
  else none

/-! ## Definitions used to state the properties -/

/-- The first `n` values obtained by decrementing `ts` again and again. -/
def decrements : Nat → TimeStamp → List TimeStamp
  | 0, _ => []
  | n + 1, ts => decrementTimeStamp ts :: decrements n (decrementTimeStamp ts)

/-- The last coordinate of a drag that starts at `c` and moves through `cs`. -/
def lastCoordinate : Int × Int → List (Int × Int) → Int × Int
  | c, [] => c
  | _, c :: cs => lastCoordinate c cs

/-- The steps of a drag: the button goes down at `c`, then the pointer moves
through `cs`. -/
def dragTrace (c : Int × Int) (cs : List (Int × Int)) : List Action :=
  Action.mouse EVENT_LBUTTONDOWN c.1 c.2 ::
    cs.map (fun p => Action.mouse EVENT_MOUSEMOVE p.1 p.2)

/-- The step is a delivery of the image callback. -/
def Action.isNewImage : Action → Bool
  | Action.newImage _ => true
  | _ => false

/-- The step is a delivery of the mouse callback with the left button going
down. -/
def Action.isButtonDown : Action → Bool
  | Action.mouse event _ _ => decide (event = EVENT_LBUTTONDOWN)
  | _ => false

/-- The time stamp the image callback stored last along a trace, `ts0` when
the trace has no delivery of it. -/
def lastObserved (ts0 : TimeStamp) : List Action → TimeStamp
  | [] => ts0
  | Action.newImage ts :: rest => lastObserved ts rest
  | _ :: rest => lastObserved ts0 rest

/-- The subtraction made when `ts` is decremented does not leave the range of
an `int32_t`: `seconds - 1` when the microseconds are 0, `microseconds - 1`
otherwise. -/
def decrementFits (ts : TimeStamp) : Prop :=
  (ts.microseconds = 0 → INT32_MIN ≤ ts.seconds - 1 ∧ ts.seconds - 1 ≤ INT32_MAX) ∧
    (ts.microseconds ≠ 0 →
      INT32_MIN ≤ ts.microseconds - 1 ∧ ts.microseconds - 1 ≤ INT32_MAX)

instance (ts : TimeStamp) : Decidable (decrementFits ts) := by
  unfold decrementFits; infer_instance

/-- No decrement made along the run of `trace` from `st` leaves the range of an
`int32_t`: whenever the send branch is taken with `send` set, the decrement of
the stored time stamp fits. -/
def noWrapRun : State → List Action → Bool
  | _, [] => true
  | st, a :: rest =>
    (match a with
      | Action.emit => !st.send || decide (decrementFits st.lastSampleTimeStamp)
      | _ => true) && noWrapRun (step st a) rest

/-- A state in which the pointer has been read while a drag was active and the
stored time stamp is `ts`. -/
def readyToSend (ts : TimeStamp) : State :=
  { initialState with g_updateCoords := true, g_x := 10, g_y := 20,
                      lastSampleTimeStamp := ts, send := true,
                      d := { azimuthAngle := 10, zenithAngle := 20 } }

/-- A state in which a drag is active at (10, 20). -/
def dragging : State :=
  { initialState with g_updateCoords := true, g_x := 10, g_y := 20 }

/-! ## Lemmas on the decrement -/

theorem wrapInt32_of_fits (v : Int) (h1 : INT32_MIN ≤ v) (h2 : v ≤ INT32_MAX) :
    wrapInt32 v = v := by
  unfold INT32_MIN at h1
  unfold INT32_MAX at h2
  unfold wrapInt32
  omega

theorem decrementTimeStamp_of_fits (ts : TimeStamp) (h : decrementFits ts) :
    decrementTimeStamp ts =
      if ts.microseconds = 0 then
        { seconds := ts.seconds - 1, microseconds := 999999 }
      else { seconds := ts.seconds, microseconds := ts.microseconds - 1 } := by
  unfold decrementTimeStamp
  by_cases h0 : ts.microseconds = 0
  · have hf := h.1 h0
    simp [h0, wrapInt32_of_fits _ hf.1 hf.2]
  · have hf := h.2 h0
    simp [h0, wrapInt32_of_fits _ hf.1 hf.2]

theorem decrementTimeStamp_lt (ts : TimeStamp) (h : decrementFits ts) :
    TimeStamp.lt (decrementTimeStamp ts) ts := by
  rw [decrementTimeStamp_of_fits ts h]
  unfold TimeStamp.lt
  by_cases h0 : ts.microseconds = 0
  · simp [h0]
  · simp [h0]

theorem TimeStamp.lt_trans {a b c : TimeStamp} (hab : TimeStamp.lt a b)
    (hbc : TimeStamp.lt b c) : TimeStamp.lt a c := by
  unfold TimeStamp.lt at *
  omega

theorem TimeStamp.le_refl (a : TimeStamp) : TimeStamp.le a a := by
  unfold TimeStamp.le
  omega

theorem TimeStamp.le_of_lt {a b : TimeStamp} (h : TimeStamp.lt a b) : TimeStamp.le a b := by
  unfold TimeStamp.lt at h
  unfold TimeStamp.le
  omega

theorem TimeStamp.le_trans {a b c : TimeStamp} (hab : TimeStamp.le a b)
    (hbc : TimeStamp.le b c) : TimeStamp.le a c := by
  unfold TimeStamp.le at *
  omega

theorem TimeStamp.lt_of_lt_of_le {a b c : TimeStamp} (hab : TimeStamp.lt a b)
    (hbc : TimeStamp.le b c) : TimeStamp.lt a c := by
  unfold TimeStamp.lt at *
  unfold TimeStamp.le at hbc
  omega

theorem TimeStamp.not_le_of_lt {a b : TimeStamp} (h : TimeStamp.lt a b) :
    ¬ TimeStamp.le b a := by
  unfold TimeStamp.lt at h
  unfold TimeStamp.le
  omega

theorem decrementFits_of_bound (ts : TimeStamp) (h : ts.normalised)
    (hmax : ts.seconds ≤ INT32_MAX) (hb : INT32_MIN * 1000000 + 1 ≤ ts.total) :
    decrementFits ts := by
  unfold TimeStamp.normalised at h
  unfold TimeStamp.total at hb
  unfold decrementFits
  unfold INT32_MIN at *
  unfold INT32_MAX at *
  constructor
  · intro h0
    omega
  · intro h0
    omega

theorem decrementTimeStamp_normalised (ts : TimeStamp) (h : ts.normalised)
    (hf : decrementFits ts) :
    (decrementTimeStamp ts).normalised ∧
      (decrementTimeStamp ts).seconds ≤ ts.seconds ∧
      (decrementTimeStamp ts).total = ts.total - 1 := by
  rw [decrementTimeStamp_of_fits ts hf]
  unfold TimeStamp.normalised at *
  unfold TimeStamp.total
  by_cases h0 : ts.microseconds = 0
  · simp [h0]; omega
  · simp [h0]; omega

theorem lt_of_total_lt {a b : TimeStamp} (ha : a.normalised) (hb : b.normalised)
    (h : a.total < b.total) : TimeStamp.lt a b := by
  unfold TimeStamp.normalised at *
  unfold TimeStamp.total at h
  unfold TimeStamp.lt
  omega

theorem decrements_length (n : Nat) (ts : TimeStamp) : (decrements n ts).length = n := by
  induction n generalizing ts with
  | zero => rfl
  | succ n ih => simp [decrements, ih]

theorem decrements_total (n : Nat) (ts : TimeStamp) (h : ts.normalised)
    (hmax : ts.seconds ≤ INT32_MAX) (hb : INT32_MIN * 1000000 + (n : Int) ≤ ts.total)
    (i : Nat) (e : TimeStamp) (he : (decrements n ts)[i]? = some e) :
    e.normalised ∧ e.total = ts.total - (i + 1) := by
  induction n generalizing ts i with
  | zero => simp [decrements] at he
  | succ n ih =>
    have hf : decrementFits ts := decrementFits_of_bound ts h hmax (by push_cast at hb; omega)
    have hd := decrementTimeStamp_normalised ts h hf
    cases i with
    | zero =>
      simp [decrements] at he
      subst he
      exact ⟨hd.1, by simpa using hd.2.2⟩
    | succ i =>
      simp [decrements] at he
      have := ih (decrementTimeStamp ts) hd.1 (by omega)
        (by rw [hd.2.2]; push_cast at hb; omega) i he
      refine ⟨this.1, ?_⟩
      rw [this.2, hd.2.2]
      push_cast
      omega

theorem decrements_lt (n : Nat) (ts : TimeStamp) (h : ts.normalised)
    (hmax : ts.seconds ≤ INT32_MAX) (hb : INT32_MIN * 1000000 + (n : Int) ≤ ts.total) :
    ∀ e ∈ decrements n ts, TimeStamp.lt e ts := by
  induction n generalizing ts with
  | zero => intro e he; simp [decrements] at he
  | succ n ih =>
    have hf : decrementFits ts := decrementFits_of_bound ts h hmax (by push_cast at hb; omega)
    have hd := decrementTimeStamp_normalised ts h hf
    intro e he
    simp only [decrements, List.mem_cons] at he
    rcases he with rfl | he
    · exact decrementTimeStamp_lt ts hf
    · exact TimeStamp.lt_trans
        (ih (decrementTimeStamp ts) hd.1 (by omega)
          (by rw [hd.2.2]; push_cast at hb; omega) e he)
        (decrementTimeStamp_lt ts hf)

/-! ## Lemmas on the loop body -/

theorem loopIteration_active (st : State) (h : st.g_updateCoords = true) :
    loopIteration st =
      { st with
        lastSampleTimeStamp := decrementTimeStamp st.lastSampleTimeStamp,
        sent := st.sent ++
          [(⟨st.g_x, st.g_y⟩, decrementTimeStamp st.lastSampleTimeStamp)],
        send := false,
        d := ⟨st.g_x, st.g_y⟩ } := by
  simp [loopIteration, readPointer, sendBranch, h]

theorem loopIterations_active (n : Nat) (st : State) (h : st.g_updateCoords = true) :
    (loopIterations n st).sent =
        st.sent ++ (decrements n st.lastSampleTimeStamp).map
          (fun t => ((⟨st.g_x, st.g_y⟩ : Direction), t)) ∧
      (loopIterations n st).lastSampleTimeStamp =
        decrementTimeStamp^[n] st.lastSampleTimeStamp := by
  induction n generalizing st with
  | zero => simp [loopIterations, decrements]
  | succ n ih =>
    have hs := loopIteration_active st h
    have h1 : (loopIteration st).g_updateCoords = true := by rw [hs]; exact h
    have := ih (loopIteration st) h1
    simp only [loopIterations, decrements]
    rw [this.1, this.2, hs]
    simp

theorem emittedTimeStamps_active (n : Nat) (st : State) (h : st.g_updateCoords = true) :
    emittedTimeStamps st n = decrements n st.lastSampleTimeStamp := by
  unfold emittedTimeStamps
  rw [(loopIterations_active n st h).1]
  simp [Function.comp_def]

theorem decrements_getElem (n : Nat) (ts : TimeStamp) (i : Nat) (hi : i < n) :
    (decrements n ts)[i]? = some (decrementTimeStamp^[i + 1] ts) := by
  induction n generalizing ts i with
  | zero => omega
  | succ n ih =>
    cases i with
    | zero => simp [decrements]
    | succ i =>
      have := ih (decrementTimeStamp ts) i (by omega)
      simpa [decrements] using this

/-! ## Lemmas on runs -/

theorem onMouse_lastSampleTimeStamp (st : State) (event x y : Int) :
    (onMouse st event x y).lastSampleTimeStamp = st.lastSampleTimeStamp ∧
      (onMouse st event x y).sent = st.sent ∧
      (onMouse st event x y).send = st.send := by
  have hne : EVENT_LBUTTONDOWN ≠ EVENT_LBUTTONUP := by decide
  obtain ⟨c, gx, gy, l, sd, d, snt⟩ := st
  by_cases hd : event = EVENT_LBUTTONDOWN <;> by_cases hu : event = EVENT_LBUTTONUP <;>
    cases c <;> simp [onMouse, hd, hu, hne, hne.symm]

theorem step_le (st : State) (a : Action) (ha : a.isNewImage = false)
    (hfit : a = Action.emit → st.send = true → decrementFits st.lastSampleTimeStamp) :
    TimeStamp.le (step st a).lastSampleTimeStamp st.lastSampleTimeStamp := by
  cases a with
  | mouse event x y =>
    simp only [step]
    rw [(onMouse_lastSampleTimeStamp st event x y).1]
    exact TimeStamp.le_refl _
  | newImage ts => simp [Action.isNewImage] at ha
  | read =>
    simp only [step, readPointer]
    split <;> exact TimeStamp.le_refl _
  | emit =>
    simp only [step, sendBranch]
    split
    · rename_i hs
      exact TimeStamp.le_of_lt (decrementTimeStamp_lt _ (hfit rfl hs))
    · exact TimeStamp.le_refl _

theorem noWrapRun_cons (st : State) (a : Action) (rest : List Action)
    (h : noWrapRun st (a :: rest) = true) :
    (a = Action.emit → st.send = true → decrementFits st.lastSampleTimeStamp) ∧
      noWrapRun (step st a) rest = true := by
  simp only [noWrapRun, Bool.and_eq_true] at h
  refine ⟨?_, h.2⟩
  intro ha hs
  subst ha
  have h1 := h.1
  simp only [Bool.or_eq_true, Bool.not_eq_true', decide_eq_true_eq] at h1
  rcases h1 with h1 | h1
  · rw [hs] at h1; cases h1
  · exact h1

theorem noWrapRun_append (t1 t2 : List Action) (st : State) :
    noWrapRun st (t1 ++ t2) = (noWrapRun st t1 && noWrapRun (run st t1) t2) := by
  induction t1 generalizing st with
  | nil => simp [noWrapRun, run]
  | cons a rest ih =>
    have h := ih (step st a)
    simp only [run] at h
    show noWrapRun st (a :: (rest ++ t2)) = _
    simp only [noWrapRun, run, List.foldl_cons]
    rw [h, Bool.and_assoc]

theorem run_le (mid : List Action) (st : State)
    (hmid : ∀ a ∈ mid, a.isNewImage = false) (hfit : noWrapRun st mid = true) :
    TimeStamp.le (run st mid).lastSampleTimeStamp st.lastSampleTimeStamp := by
  induction mid generalizing st with
  | nil => exact TimeStamp.le_refl _
  | cons a rest ih =>
    have hc := noWrapRun_cons st a rest hfit
    have h1 := step_le st a (hmid a (List.mem_cons_self a rest)) hc.1
    have h2 := ih (step st a) (fun b hb => hmid b (List.mem_cons_of_mem a hb)) hc.2
    exact TimeStamp.le_trans h2 h1

theorem step_sent (st : State) (a : Action) (ts : TimeStamp) (ha : a.isNewImage = false)
    (hfit : a = Action.emit → st.send = true → decrementFits st.lastSampleTimeStamp)
    (hle : TimeStamp.le st.lastSampleTimeStamp ts) :
    ∃ new, (step st a).sent = st.sent ++ new ∧ ∀ p ∈ new, TimeStamp.lt p.2 ts := by
  cases a with
  | mouse event x y =>
    exact ⟨[], by simp [step, (onMouse_lastSampleTimeStamp st event x y).2.1], by simp⟩
  | newImage t => simp [Action.isNewImage] at ha
  | read =>
    refine ⟨[], ?_, by simp⟩
    simp only [step, readPointer]
    split <;> simp
  | emit =>
    by_cases hs : st.send = true
    · refine ⟨[(st.d, decrementTimeStamp st.lastSampleTimeStamp)], ?_, ?_⟩
      · simp [step, sendBranch, hs]
      · intro p hp
        simp only [List.mem_singleton] at hp
        subst hp
        exact TimeStamp.lt_of_lt_of_le (decrementTimeStamp_lt _ (hfit rfl hs)) hle
    · exact ⟨[], by simp [step, sendBranch, hs], by simp⟩

theorem run_sent (trace : List Action) (st : State) (ts : TimeStamp)
    (hmid : ∀ a ∈ trace, a.isNewImage = false) (hfit : noWrapRun st trace = true)
    (hle : TimeStamp.le st.lastSampleTimeStamp ts) :
    ∃ new, (run st trace).sent = st.sent ++ new ∧ ∀ p ∈ new, TimeStamp.lt p.2 ts := by
  induction trace generalizing st with
  | nil => exact ⟨[], by simp [run], by simp⟩
  | cons a rest ih =>
    have hc := noWrapRun_cons st a rest hfit
    have ha := hmid a (List.mem_cons_self a rest)
    obtain ⟨new0, h0, hlt0⟩ := step_sent st a ts ha hc.1 hle
    have hle1 := TimeStamp.le_trans (step_le st a ha hc.1) hle
    obtain ⟨new1, h1, hlt1⟩ :=
      ih (step st a) (fun b hb => hmid b (List.mem_cons_of_mem a hb)) hc.2 hle1
    refine ⟨new0 ++ new1, ?_, ?_⟩
    · have hrun : run st (a :: rest) = run (step st a) rest := by simp [run]
      rw [hrun, h1, h0, List.append_assoc]
    · intro p hp
      rcases List.mem_append.mp hp with hp | hp
      · exact hlt0 p hp
      · exact hlt1 p hp

/-- After the image callback stored `ts`, every annotation sent along a trace
with no further image callback and no decrement leaving the range of an
`int32_t` carries a time stamp strictly below `ts`, whatever callbacks of the
mouse fall between the loop iterations. -/
theorem emitted_lt_observed_any_trace (st : State) (ts : TimeStamp) (trace : List Action)
    (hmid : ∀ a ∈ trace, a.isNewImage = false)
    (hfit : noWrapRun (onNewImage st ts) trace = true) :
    ∃ new, (run (onNewImage st ts) trace).sent = st.sent ++ new ∧
      ∀ p ∈ new, TimeStamp.lt p.2 ts :=
  run_sent trace (onNewImage st ts) ts hmid hfit (TimeStamp.le_refl ts)

theorem onMouse_idle (st : State) (event x y : Int) (hidle : st.g_updateCoords = false)
    (hev : event ≠ EVENT_LBUTTONDOWN) : onMouse st event x y = st := by
  obtain ⟨c, gx, gy, l, sd, d, snt⟩ := st
  simp only at hidle
  subst hidle
  have hne : EVENT_LBUTTONUP ≠ EVENT_LBUTTONDOWN := by decide
  by_cases hu : event = EVENT_LBUTTONUP <;> simp [onMouse, hev, hu, hne]

theorem run_idle (trace : List Action) (st : State) (hidle : st.g_updateCoords = false)
    (hsend : st.send = false)
    (htrace : ∀ a ∈ trace, a.isButtonDown = false) :
    (run st trace).sent = st.sent ∧
      (run st trace).lastSampleTimeStamp = lastObserved st.lastSampleTimeStamp trace ∧
      (run st trace).g_updateCoords = false := by
  induction trace generalizing st with
  | nil => simp [run, lastObserved, hidle]
  | cons a rest ih =>
    have hrest : ∀ b ∈ rest, b.isButtonDown = false :=
      fun b hb => htrace b (List.mem_cons_of_mem a hb)
    have ha := htrace a (List.mem_cons_self a rest)
    cases a with
    | mouse event x y =>
      have hev : event ≠ EVENT_LBUTTONDOWN := by simpa [Action.isButtonDown] using ha
      have hst : step st (Action.mouse event x y) = st := onMouse_idle st event x y hidle hev
      have := ih st hidle hsend hrest
      simpa [run, List.foldl_cons, hst, lastObserved] using this
    | newImage ts =>
      have := ih (onNewImage st ts) hidle hsend hrest
      simpa [run, List.foldl_cons, step, lastObserved, onNewImage] using this
    | read =>
      have hst : step st Action.read = { st with d := ⟨0, 0⟩ } := by
        cases st
        simp only at hidle hsend
        subst hidle hsend
        simp [step, readPointer]
      have := ih { st with d := ⟨0, 0⟩ } hidle hsend hrest
      simpa [run, List.foldl_cons, hst, lastObserved] using this
    | emit =>
      have hst : step st Action.emit = st := by simp [step, sendBranch, hsend]
      have := ih st hidle hsend hrest
      simpa [run, List.foldl_cons, hst, lastObserved] using this

theorem run_append (st : State) (t1 t2 : List Action) :
    run st (t1 ++ t2) = run (run st t1) t2 := by
  simp [run, List.foldl_append]

theorem toUInt16_of_inRange (v : Int) (h0 : 0 ≤ v) (h1 : v ≤ 65535) :
    (toUInt16 v : Int) = v := by
  unfold toUInt16
  have : v % 65536 = v := Int.emod_eq_of_lt h0 (by omega)
  rw [this]
  exact Int.toNat_of_nonneg h0

theorem run_moves (cs : List (Int × Int)) (st : State) (c : Int × Int)
    (hactive : st.g_updateCoords = true) (hx : st.g_x = toUInt16 c.1)
    (hy : st.g_y = toUInt16 c.2) :
    (run st (cs.map (fun p => Action.mouse EVENT_MOUSEMOVE p.1 p.2))).g_updateCoords = true ∧
      (run st (cs.map (fun p => Action.mouse EVENT_MOUSEMOVE p.1 p.2))).g_x =
        toUInt16 (lastCoordinate c cs).1 ∧
      (run st (cs.map (fun p => Action.mouse EVENT_MOUSEMOVE p.1 p.2))).g_y =
        toUInt16 (lastCoordinate c cs).2 := by
  induction cs generalizing st c with
  | nil => simp [run, lastCoordinate, hactive, hx, hy]
  | cons p rest ih =>
    have hst : onMouse st EVENT_MOUSEMOVE p.1 p.2 =
        { st with g_x := toUInt16 p.1, g_y := toUInt16 p.2 } := by
      simp [onMouse, EVENT_MOUSEMOVE, EVENT_LBUTTONDOWN, EVENT_LBUTTONUP, hactive]
    have := ih { st with g_x := toUInt16 p.1, g_y := toUInt16 p.2 } p hactive rfl rfl
    simpa [run, List.foldl_cons, step, hst, lastCoordinate] using this

/-! ## Time stamps of the annotations -/

/-- C1: the send branch decrements the stored time stamp by the borrow rule,
`{s - 1, 999999}` when the microseconds are 0 and `{s, us - 1}` otherwise, the
subtraction being the 32-bit one of the code; it sends `d` with the decremented
value and keeps that value as the stored reference.  Whenever `s - 1`
(respectively `us - 1`) is within the range of an `int32_t` the result is
`{s - 1, 999999}` (respectively `{s, us - 1}`) in exact arithmetic; after the
image callback stored `{s, 0}` it sends `{s - 1, 999999}` and after `{s, 500}` it
sends `{s, 499}`. -/
theorem sendBranch_borrow_rule (st : State) (hsend : st.send = true) :
    (sendBranch st).sent = st.sent ++ [(st.d, (sendBranch st).lastSampleTimeStamp)] ∧
      (st.lastSampleTimeStamp.microseconds = 0 →
        (sendBranch st).lastSampleTimeStamp =
          { seconds := wrapInt32 (st.lastSampleTimeStamp.seconds - 1),
            microseconds := 999999 }) ∧
      (st.lastSampleTimeStamp.microseconds ≠ 0 →
        (sendBranch st).lastSampleTimeStamp =
          { seconds := st.lastSampleTimeStamp.seconds,
            microseconds := wrapInt32 (st.lastSampleTimeStamp.microseconds - 1) }) ∧
      (st.lastSampleTimeStamp.microseconds = 0 →
        INT32_MIN ≤ st.lastSampleTimeStamp.seconds - 1 →
        st.lastSampleTimeStamp.seconds - 1 ≤ INT32_MAX →
        (sendBranch st).lastSampleTimeStamp =
          { seconds := st.lastSampleTimeStamp.seconds - 1, microseconds := 999999 }) ∧
      (st.lastSampleTimeStamp.microseconds ≠ 0 →
        INT32_MIN ≤ st.lastSampleTimeStamp.microseconds - 1 →
        st.lastSampleTimeStamp.microseconds - 1 ≤ INT32_MAX →
        (sendBranch st).lastSampleTimeStamp =
          { seconds := st.lastSampleTimeStamp.seconds,
            microseconds := st.lastSampleTimeStamp.microseconds - 1 }) ∧
      (∀ s : Int,
        (sendBranch (onNewImage st ⟨s, 0⟩)).sent =
          st.sent ++ [(st.d, ⟨wrapInt32 (s - 1), 999999⟩)] ∧
        (sendBranch (onNewImage st ⟨s, 0⟩)).lastSampleTimeStamp =
          ⟨wrapInt32 (s - 1), 999999⟩) ∧
      (∀ s : Int, INT32_MIN ≤ s - 1 → s - 1 ≤ INT32_MAX →
        (sendBranch (onNewImage st ⟨s, 0⟩)).sent = st.sent ++ [(st.d, ⟨s - 1, 999999⟩)] ∧
        (sendBranch (onNewImage st ⟨s, 0⟩)).lastSampleTimeStamp = ⟨s - 1, 999999⟩) ∧
      (∀ s : Int,
        (sendBranch (onNewImage st ⟨s, 500⟩)).sent = st.sent ++ [(st.d, ⟨s, 499⟩)] ∧
        (sendBranch (onNewImage st ⟨s, 500⟩)).lastSampleTimeStamp = ⟨s, 499⟩) := by
  have h499 : wrapInt32 499 = 499 := by decide
  refine ⟨?_, ?_, ?_, ?_, ?_, ?_, ?_, ?_⟩
  · simp [sendBranch, hsend]
  · intro h0
    simp [sendBranch, hsend, decrementTimeStamp, h0]
  · intro h0
    simp [sendBranch, hsend, decrementTimeStamp, h0]
  · intro h0 h1 h2
    simp [sendBranch, hsend, decrementTimeStamp, h0, wrapInt32_of_fits _ h1 h2]
  · intro h0 h1 h2
    simp [sendBranch, hsend, decrementTimeStamp, h0, wrapInt32_of_fits _ h1 h2]
  · intro s
    simp [sendBranch, onNewImage, hsend, decrementTimeStamp]
  · intro s h1 h2
    simp [sendBranch, onNewImage, hsend, decrementTimeStamp, wrapInt32_of_fits _ h1 h2]
  · intro s
    simp [sendBranch, onNewImage, hsend, decrementTimeStamp, h499]

/-- An instance of the borrow rule: from the stored time stamp `{7, 0}` the send
branch sends `{6, 999999}`. -/
theorem sendBranch_borrow_rule_witness :
    (readyToSend ⟨7, 0⟩).send = true ∧
      (sendBranch (readyToSend ⟨7, 0⟩)).lastSampleTimeStamp = ⟨6, 999999⟩ ∧
      (sendBranch (readyToSend ⟨7, 0⟩)).sent = [(⟨10, 20⟩, ⟨6, 999999⟩)] :=
  ⟨by decide,
   (sendBranch_borrow_rule (readyToSend ⟨7, 0⟩) (by decide)).2.2.2.1
     (by decide) (by decide) (by decide),
   by
    have h := (sendBranch_borrow_rule (readyToSend ⟨7, 0⟩) (by decide)).1
    rw [h]
    decide⟩

/-- C2 (as amended): after the image callback stored a time stamp `ts` with
microseconds in 0..999999 and seconds at most `INT32_MAX`, `n` loop iterations
with an active drag and no further image callback, with `n` small enough for
the seconds not to pass below `INT32_MIN`
(`INT32_MIN * 1000000 + n <= s * 1000000 + us`), send `n` annotations, each with
a time stamp strictly below `ts` in the lexicographic order. -/
theorem emitted_lt_observed (st : State) (ts : TimeStamp) (n : Nat)
    (hactive : st.g_updateCoords = true)
    (hts : 0 ≤ ts.microseconds ∧ ts.microseconds ≤ 999999)
    (hmax : ts.seconds ≤ INT32_MAX)
    (hbound : INT32_MIN * 1000000 + (n : Int) ≤ ts.seconds * 1000000 + ts.microseconds) :
    (emittedTimeStamps (onNewImage st ts) n).length = n ∧
      ∀ e ∈ emittedTimeStamps (onNewImage st ts) n, TimeStamp.lt e ts := by
  have h := emittedTimeStamps_active n (onNewImage st ts) hactive
  rw [h]
  exact ⟨decrements_length n _, decrements_lt n ts hts hmax hbound⟩

/-- An instance: three annotations sent after `{100, 1}` was stored. -/
theorem emitted_lt_observed_witness :
    dragging.g_updateCoords = true ∧
      ((0 : Int) ≤ (⟨100, 1⟩ : TimeStamp).microseconds ∧
        (⟨100, 1⟩ : TimeStamp).microseconds ≤ 999999) ∧
      (⟨100, 1⟩ : TimeStamp).seconds ≤ INT32_MAX ∧
      INT32_MIN * 1000000 + ((3 : Nat) : Int) ≤
        (⟨100, 1⟩ : TimeStamp).seconds * 1000000 + (⟨100, 1⟩ : TimeStamp).microseconds ∧
      (emittedTimeStamps (onNewImage dragging ⟨100, 1⟩) 3).length = 3 ∧
      ∀ e ∈ emittedTimeStamps (onNewImage dragging ⟨100, 1⟩) 3, TimeStamp.lt e ⟨100, 1⟩ :=
  ⟨by decide, by decide, by decide, by decide,
   emitted_lt_observed dragging ⟨100, 1⟩ 3 (by decide) (by decide) (by decide) (by decide)⟩

/-- C2 (as stated) fails: with the button down, after the image callback stored
`{-2147483648, 0}`, whose microseconds are within 0..999999, the one loop
iteration that follows sends the time stamp `{2147483647, 999999}`, which is not
below the stored one. -/
theorem emitted_lt_observed_counterexample :
    (run initialState
        [Action.mouse EVENT_LBUTTONDOWN 10 20, Action.newImage ⟨-2147483648, 0⟩,
         Action.read, Action.emit]).sent = [(⟨10, 20⟩, ⟨2147483647, 999999⟩)] ∧
      emittedTimeStamps (onNewImage dragging ⟨-2147483648, 0⟩) 1 =
        [⟨2147483647, 999999⟩] ∧
      ¬ TimeStamp.lt ⟨2147483647, 999999⟩ ⟨-2147483648, 0⟩ := by
  decide

/-- C4: two successive loop iterations with an active drag and no image
callback in between send two time stamps of which the second is strictly
below the first in the lexicographic order, whatever the stored reference,
provided the decrement that yields the second one stays within the range of an
`int32_t`; from `{s, 500}` they are `{s, 499}` and then `{s, 498}`. -/
theorem successive_emissions_decrease (st : State) (hactive : st.g_updateCoords = true)
    (hfit : decrementFits (decrementTimeStamp st.lastSampleTimeStamp)) :
    (∃ e1 e2 : TimeStamp, emittedTimeStamps st 2 = [e1, e2] ∧ TimeStamp.lt e2 e1) ∧
      ∀ s : Int, emittedTimeStamps (onNewImage st ⟨s, 500⟩) 2 = [⟨s, 499⟩, ⟨s, 498⟩] := by
  constructor
  · refine ⟨decrementTimeStamp st.lastSampleTimeStamp,
      decrementTimeStamp (decrementTimeStamp st.lastSampleTimeStamp), ?_, ?_⟩
    · rw [emittedTimeStamps_active 2 st hactive]
      rfl
    · exact decrementTimeStamp_lt _ hfit
  · intro s
    have h499 : wrapInt32 499 = 499 := by decide
    have h498 : wrapInt32 498 = 498 := by decide
    rw [emittedTimeStamps_active 2 (onNewImage st ⟨s, 500⟩) hactive]
    simp [decrements, decrementTimeStamp, onNewImage, h499, h498]

/-- An instance: two annotations sent after `{3, 500}` was stored. -/
theorem successive_emissions_decrease_witness :
    (onNewImage dragging ⟨3, 500⟩).g_updateCoords = true ∧
      decrementFits (decrementTimeStamp (onNewImage dragging ⟨3, 500⟩).lastSampleTimeStamp) ∧
      (∃ e1 e2 : TimeStamp,
        emittedTimeStamps (onNewImage dragging ⟨3, 500⟩) 2 = [e1, e2] ∧ TimeStamp.lt e2 e1) :=
  ⟨by decide, by decide,
   (successive_emissions_decrease (onNewImage dragging ⟨3, 500⟩) (by decide) (by decide)).1⟩

/-- C10: after the image callback stored `{s, us}` with `0 <= us <= 999999`, the
`k`-th of `k >= 1` annotations sent with no further image callback carries a
time stamp `{s1, us1}` with `0 <= us1 <= 999999` and
`s1 * 1000000 + us1 = s * 1000000 + us - k`, and it is the stored reference
after these `k` iterations; no wrap-around: `s <= INT32_MAX` and
`INT32_MIN * 1000000 + k <= s * 1000000 + us`. -/
theorem kth_emitted_exact (st : State) (ts : TimeStamp) (k : Nat)
    (hactive : st.g_updateCoords = true)
    (hts : 0 ≤ ts.microseconds ∧ ts.microseconds ≤ 999999) (hk : 1 ≤ k)
    (hmax : ts.seconds ≤ INT32_MAX)
    (hbound : INT32_MIN * 1000000 + (k : Int) ≤ ts.seconds * 1000000 + ts.microseconds) :
    ∃ e : TimeStamp,
      (emittedTimeStamps (onNewImage st ts) k)[k - 1]? = some e ∧
      (loopIterations k (onNewImage st ts)).lastSampleTimeStamp = e ∧
      0 ≤ e.microseconds ∧ e.microseconds ≤ 999999 ∧
      e.seconds * 1000000 + e.microseconds =
        ts.seconds * 1000000 + ts.microseconds - (k : Int) := by
  have hem := emittedTimeStamps_active k (onNewImage st ts) hactive
  have hget := decrements_getElem k ts (k - 1) (by omega)
  have hk1 : k - 1 + 1 = k := by omega
  rw [hk1] at hget
  refine ⟨decrementTimeStamp^[k] ts, ?_, ?_, ?_⟩
  · rw [hem]
    exact hget
  · exact (loopIterations_active k (onNewImage st ts) hactive).2
  · have htot := decrements_total k ts hts hmax hbound (k - 1) _ hget
    have hn := htot.1
    have ht := htot.2
    unfold TimeStamp.normalised at hn
    unfold TimeStamp.total at ht
    refine ⟨hn.1, hn.2, ?_⟩
    rw [ht]
    omega

/-- An instance: the third annotation sent after `{100, 1}` was stored. -/
theorem kth_emitted_exact_witness :
    dragging.g_updateCoords = true ∧
      ((0 : Int) ≤ (⟨100, 1⟩ : TimeStamp).microseconds ∧
        (⟨100, 1⟩ : TimeStamp).microseconds ≤ 999999) ∧ 1 ≤ 3 ∧
      (⟨100, 1⟩ : TimeStamp).seconds ≤ INT32_MAX ∧
      INT32_MIN * 1000000 + ((3 : Nat) : Int) ≤
        (⟨100, 1⟩ : TimeStamp).seconds * 1000000 + (⟨100, 1⟩ : TimeStamp).microseconds ∧
      ∃ e : TimeStamp,
        (emittedTimeStamps (onNewImage dragging ⟨100, 1⟩) 3)[3 - 1]? = some e ∧
        (loopIterations 3 (onNewImage dragging ⟨100, 1⟩)).lastSampleTimeStamp = e ∧
        0 ≤ e.microseconds ∧ e.microseconds ≤ 999999 ∧
        e.seconds * 1000000 + e.microseconds =
          (⟨100, 1⟩ : TimeStamp).seconds * 1000000 + (⟨100, 1⟩ : TimeStamp).microseconds -
            ((3 : Nat) : Int) :=
  ⟨by decide, by decide, by decide, by decide, by decide,
   kth_emitted_exact dragging ⟨100, 1⟩ 3 (by decide) (by decide) (by decide) (by decide)
     (by decide)⟩

/-- C3 (as amended): of two annotations sent with no image callback between
them, and with no decrement after the first one, up to and including the one
of the second, leaving the range of an `int32_t`, the later one carries a time
stamp less than or equal to that of the earlier one in the lexicographic order,
and the earlier one is not less than or equal to the later one. -/
theorem later_emission_le_earlier (st : State) (mid : List Action)
    (hsend : st.send = true)
    (hmid : ∀ a ∈ mid, a.isNewImage = false)
    (hsend2 : (run (sendBranch st) mid).send = true)
    (hfit : noWrapRun (sendBranch st) (mid ++ [Action.emit]) = true) :
    ∃ d1 e1 d2 e2,
      (sendBranch st).sent = st.sent ++ [(d1, e1)] ∧
      (sendBranch (run (sendBranch st) mid)).sent =
        (run (sendBranch st) mid).sent ++ [(d2, e2)] ∧
      TimeStamp.le e2 e1 ∧ ¬ TimeStamp.le e1 e2 := by
  rw [noWrapRun_append, Bool.and_eq_true] at hfit
  have hlast : decrementFits (run (sendBranch st) mid).lastSampleTimeStamp :=
    (noWrapRun_cons _ Action.emit [] hfit.2).1 rfl hsend2
  have hle := run_le mid (sendBranch st) hmid hfit.1
  have h1 : (sendBranch st).lastSampleTimeStamp = decrementTimeStamp st.lastSampleTimeStamp := by
    simp [sendBranch, hsend]
  rw [h1] at hle
  have hlt : TimeStamp.lt (decrementTimeStamp (run (sendBranch st) mid).lastSampleTimeStamp)
      (decrementTimeStamp st.lastSampleTimeStamp) :=
    TimeStamp.lt_of_lt_of_le (decrementTimeStamp_lt _ hlast) hle
  refine ⟨st.d, decrementTimeStamp st.lastSampleTimeStamp, (run (sendBranch st) mid).d,
    decrementTimeStamp (run (sendBranch st) mid).lastSampleTimeStamp, ?_, ?_,
    TimeStamp.le_of_lt hlt, TimeStamp.not_le_of_lt hlt⟩
  · simp [sendBranch, hsend]
  · rw [sendBranch, if_pos hsend2]

/-- An instance: two annotations with a move of the pointer and a read of the
pointer state between them. -/
theorem later_emission_le_earlier_witness :
    (readyToSend ⟨100, 1⟩).send = true ∧
      (∀ a ∈ [Action.mouse EVENT_MOUSEMOVE 11 21, Action.read], a.isNewImage = false) ∧
      (run (sendBranch (readyToSend ⟨100, 1⟩))
        [Action.mouse EVENT_MOUSEMOVE 11 21, Action.read]).send = true ∧
      noWrapRun (sendBranch (readyToSend ⟨100, 1⟩))
        ([Action.mouse EVENT_MOUSEMOVE 11 21, Action.read] ++ [Action.emit]) = true ∧
      ∃ d1 e1 d2 e2,
        (sendBranch (readyToSend ⟨100, 1⟩)).sent = (readyToSend ⟨100, 1⟩).sent ++ [(d1, e1)] ∧
        (sendBranch (run (sendBranch (readyToSend ⟨100, 1⟩))
            [Action.mouse EVENT_MOUSEMOVE 11 21, Action.read])).sent =
          (run (sendBranch (readyToSend ⟨100, 1⟩))
            [Action.mouse EVENT_MOUSEMOVE 11 21, Action.read]).sent ++ [(d2, e2)] ∧
        TimeStamp.le e2 e1 ∧ ¬ TimeStamp.le e1 e2 :=
  ⟨by decide, by decide, by decide, by decide,
   later_emission_le_earlier (readyToSend ⟨100, 1⟩)
     [Action.mouse EVENT_MOUSEMOVE 11 21, Action.read] (by decide) (by decide) (by decide)
     (by decide)⟩

/-- C3 (as stated) fails: after the image callback stored `{100, 500}` and the
button went down, two loop iterations send `{100, 499}` and then `{100, 498}`,
and the later of the two is not greater than or equal to the earlier. -/
theorem later_emission_ge_earlier_counterexample :
    (run initialState
        [Action.newImage ⟨100, 500⟩, Action.mouse EVENT_LBUTTONDOWN 10 20,
         Action.read, Action.emit, Action.read, Action.emit]).sent.map Prod.snd =
      [⟨100, 499⟩, ⟨100, 498⟩] ∧
      ¬ TimeStamp.le ⟨100, 499⟩ ⟨100, 498⟩ := by
  decide

/-! ## Pointer state -/

/-- C6 (as amended): the left button going down at `(x, y)` sets the drag flag
and stores `x mod 65536` and `y mod 65536`; a move to `(x, y)` during a drag
stores `x mod 65536` and `y mod 65536` and leaves the flag set; a move outside
a drag changes nothing; the left button going up clears the flag and keeps the
stored coordinates.  The stored values are `x` and `y` themselves when these
are within 0..65535. -/
theorem onMouse_transition_table (st : State) (x y : Int) :
    onMouse st EVENT_LBUTTONDOWN x y =
        { st with g_updateCoords := true, g_x := toUInt16 x, g_y := toUInt16 y } ∧
      (st.g_updateCoords = true →
        onMouse st EVENT_MOUSEMOVE x y =
          { st with g_updateCoords := true, g_x := toUInt16 x, g_y := toUInt16 y }) ∧
      (st.g_updateCoords = false → onMouse st EVENT_MOUSEMOVE x y = st) ∧
      onMouse st EVENT_LBUTTONUP x y = { st with g_updateCoords := false } ∧
      (0 ≤ x ∧ x ≤ 65535 → (toUInt16 x : Int) = x) ∧
      (0 ≤ y ∧ y ≤ 65535 → (toUInt16 y : Int) = y) := by
  refine ⟨?_, ?_, ?_, ?_, ?_, ?_⟩
  · simp [onMouse, EVENT_LBUTTONDOWN, EVENT_LBUTTONUP]
  · intro h
    obtain ⟨c, gx, gy, l, sd, d, snt⟩ := st
    simp only at h
    subst h
    simp [onMouse, EVENT_MOUSEMOVE, EVENT_LBUTTONDOWN, EVENT_LBUTTONUP]
  · intro h
    exact onMouse_idle st EVENT_MOUSEMOVE x y h (by decide)
  · simp [onMouse, EVENT_LBUTTONDOWN, EVENT_LBUTTONUP]
  · intro h
    exact toUInt16_of_inRange x h.1 h.2
  · intro h
    exact toUInt16_of_inRange y h.1 h.2

/-- An instance: a move to `(70000, -1)` during a drag and outside a drag. -/
theorem onMouse_transition_table_witness :
    dragging.g_updateCoords = true ∧ initialState.g_updateCoords = false ∧
      onMouse dragging EVENT_MOUSEMOVE 70000 (-1) =
        { dragging with g_updateCoords := true, g_x := 4464, g_y := 65535 } ∧
      onMouse initialState EVENT_MOUSEMOVE 70000 (-1) = initialState ∧
      (toUInt16 640 : Int) = 640 :=
  ⟨by decide, by decide,
   (onMouse_transition_table dragging 70000 (-1)).2.1 (by decide),
   (onMouse_transition_table initialState 70000 (-1)).2.2.1 (by decide),
   (onMouse_transition_table initialState 640 0).2.2.2.2.1 (by decide)⟩

/-- C6 (as stated) fails: the left button going down at `(-1, 20)` sets the
drag flag and stores the coordinate `(65535, 20)`, not `(-1, 20)`. -/
theorem onMouse_buttonDown_counterexample :
    (onMouse initialState EVENT_LBUTTONDOWN (-1) 20).g_updateCoords = true ∧
      (onMouse initialState EVENT_LBUTTONDOWN (-1) 20).g_x = 65535 ∧
      (onMouse initialState EVENT_LBUTTONDOWN (-1) 20).g_y = 20 ∧
      ((onMouse initialState EVENT_LBUTTONDOWN (-1) 20).g_x : Int) ≠ -1 := by
  decide

/-- C7 (as amended): along a drag that starts with the button going down at
`c` and moves through `cs`, after the button went down and the first `k` moves
were delivered the drag flag is set, the stored coordinate is that of the most
recent event modulo 65536 in each component (the coordinate itself when it is
within 0..65535), and the main loop reads `send = true` with these values; after
the button went up at the end, the drag flag is cleared. -/
theorem drag_sequence (st : State) (c : Int × Int) (cs : List (Int × Int)) (k : Nat)
    (xu yu : Int) :
    (run st (dragTrace c (cs.take k))).g_updateCoords = true ∧
      (run st (dragTrace c (cs.take k))).g_x = toUInt16 (lastCoordinate c (cs.take k)).1 ∧
      (run st (dragTrace c (cs.take k))).g_y = toUInt16 (lastCoordinate c (cs.take k)).2 ∧
      (readPointer (run st (dragTrace c (cs.take k)))).send = true ∧
      (readPointer (run st (dragTrace c (cs.take k)))).d =
        { azimuthAngle := toUInt16 (lastCoordinate c (cs.take k)).1,
          zenithAngle := toUInt16 (lastCoordinate c (cs.take k)).2 } ∧
      (0 ≤ (lastCoordinate c (cs.take k)).1 ∧ (lastCoordinate c (cs.take k)).1 ≤ 65535 →
        ((run st (dragTrace c (cs.take k))).g_x : Int) = (lastCoordinate c (cs.take k)).1) ∧
      (0 ≤ (lastCoordinate c (cs.take k)).2 ∧ (lastCoordinate c (cs.take k)).2 ≤ 65535 →
        ((run st (dragTrace c (cs.take k))).g_y : Int) = (lastCoordinate c (cs.take k)).2) ∧
      (run st (dragTrace c cs ++ [Action.mouse EVENT_LBUTTONUP xu yu])).g_updateCoords
        = false := by
  have hdown : onMouse st EVENT_LBUTTONDOWN c.1 c.2 =
      { st with g_updateCoords := true, g_x := toUInt16 c.1, g_y := toUInt16 c.2 } := by
    simp [onMouse, EVENT_LBUTTONDOWN, EVENT_LBUTTONUP]
  have hrun : ∀ ms : List (Int × Int), run st (dragTrace c ms) =
      run { st with g_updateCoords := true, g_x := toUInt16 c.1, g_y := toUInt16 c.2 }
        (ms.map (fun p => Action.mouse EVENT_MOUSEMOVE p.1 p.2)) := by
    intro ms
    simp [run, dragTrace, List.foldl_cons, step, hdown]
  have hmoves := fun ms : List (Int × Int) =>
    run_moves ms { st with g_updateCoords := true, g_x := toUInt16 c.1, g_y := toUInt16 c.2 }
      c rfl rfl rfl
  have hk := hmoves (cs.take k)
  rw [← hrun] at hk
  obtain ⟨ha, hx, hy⟩ := hk
  refine ⟨ha, hx, hy, ?_, ?_, ?_, ?_, ?_⟩
  · simp [readPointer, ha]
  · simp [readPointer, ha, hx, hy]
  · intro h
    rw [hx]
    exact toUInt16_of_inRange _ h.1 h.2
  · intro h
    rw [hy]
    exact toUInt16_of_inRange _ h.1 h.2
  · rw [run_append]
    simp [run, step, onMouse, EVENT_LBUTTONDOWN, EVENT_LBUTTONUP]

/-- An instance: a drag from `(10, 20)` through three further coordinates. -/
theorem drag_sequence_witness :
    (run initialState (dragTrace (10, 20) [(11, 21), (12, 22)])).g_x = 12 ∧
      (run initialState (dragTrace (10, 20) [(11, 21), (12, 22)])).g_y = 22 ∧
      (run initialState
        (dragTrace (10, 20) [(11, 21), (12, 22), (13, 23)] ++
          [Action.mouse EVENT_LBUTTONUP 13 23])).g_updateCoords = false :=
  ⟨(drag_sequence initialState (10, 20) [(11, 21), (12, 22), (13, 23)] 2 13 23).2.1,
   (drag_sequence initialState (10, 20) [(11, 21), (12, 22), (13, 23)] 2 13 23).2.2.1,
   (drag_sequence initialState (10, 20) [(11, 21), (12, 22), (13, 23)] 2 13 23).2.2.2.2.2.2.2⟩

/-- C7 (as stated) fails: after the button went down at `(10, 20)` and the
pointer moved to `(-3, 70000)`, the drag flag is set and the stored coordinate
is `(65533, 4464)`, not the coordinate `(-3, 70000)` of the most recent
event. -/
theorem drag_sequence_counterexample :
    (run initialState (dragTrace (10, 20) [(-3, 70000)])).g_updateCoords = true ∧
      (run initialState (dragTrace (10, 20) [(-3, 70000)])).g_x = 65533 ∧
      (run initialState (dragTrace (10, 20) [(-3, 70000)])).g_y = 4464 ∧
      ¬ (((run initialState (dragTrace (10, 20) [(-3, 70000)])).g_x : Int) = -3 ∧
          ((run initialState (dragTrace (10, 20) [(-3, 70000)])).g_y : Int) = 70000) := by
  decide

/-! ## The loop as a whole -/

/-- C8 (as amended): from the initial state, after the image callback stored
`ts` and the left button went down at `(x, y)`, one loop iteration sends
exactly one annotation; its azimuth is `x mod 65536`, its zenith is
`y mod 65536` (`x` and `y` themselves when these are within 0..65535) and its
time stamp is `ts` decremented by the borrow rule, in the 32-bit arithmetic of
the code, which is `{s - 1, 999999}` or `{s, us - 1}` in exact arithmetic
whenever the subtraction stays within the range of an `int32_t`.  For `{100, 0}`
and `(10, 20)` the annotation is `{10, 20, {99, 999999}}`, also when the program
is run through `main` with the options of the usage example. -/
theorem end_to_end_emission (ts : TimeStamp) (x y : Int) :
    (loopIteration
        (run initialState [Action.newImage ts, Action.mouse EVENT_LBUTTONDOWN x y])).sent =
        [(({ azimuthAngle := toUInt16 x, zenithAngle := toUInt16 y } : Direction),
          if ts.microseconds = 0 then
            ({ seconds := wrapInt32 (ts.seconds - 1), microseconds := 999999 } : TimeStamp)
          else { seconds := ts.seconds, microseconds := wrapInt32 (ts.microseconds - 1) })] ∧
      (decrementFits ts →
        (loopIteration
          (run initialState [Action.newImage ts, Action.mouse EVENT_LBUTTONDOWN x y])).sent =
          [(({ azimuthAngle := toUInt16 x, zenithAngle := toUInt16 y } : Direction),
            if ts.microseconds = 0 then
              ({ seconds := ts.seconds - 1, microseconds := 999999 } : TimeStamp)
            else { seconds := ts.seconds, microseconds := ts.microseconds - 1 })]) ∧
      (0 ≤ x ∧ x ≤ 65535 → (toUInt16 x : Int) = x) ∧
      (0 ≤ y ∧ y ≤ 65535 → (toUInt16 y : Int) = y) ∧
      (loopIteration
        (run initialState
          [Action.newImage ⟨100, 0⟩, Action.mouse EVENT_LBUTTONDOWN 10 20])).sent =
        [(⟨10, 20⟩, ⟨99, 999999⟩)] ∧
      main exampleArguments (fun _ => true)
          [{ beforeRead := [Action.newImage ⟨100, 0⟩, Action.mouse EVENT_LBUTTONDOWN 10 20],
             beforeSend := [] }] =
        some { retCode := 0, sent := [(⟨10, 20⟩, ⟨99, 999999⟩)] } := by
  have hsent : (loopIteration
        (run initialState [Action.newImage ts, Action.mouse EVENT_LBUTTONDOWN x y])).sent =
      [(({ azimuthAngle := toUInt16 x, zenithAngle := toUInt16 y } : Direction),
        decrementTimeStamp ts)] := by
    simp [loopIteration, readPointer, sendBranch, run, step, onNewImage, onMouse,
      initialState, EVENT_LBUTTONDOWN, EVENT_LBUTTONUP]
  refine ⟨?_, ?_, ?_, ?_, ?_, ?_⟩
  · rw [hsent]
    by_cases h0 : ts.microseconds = 0 <;> simp [decrementTimeStamp, h0]
  · intro hfit
    rw [hsent, decrementTimeStamp_of_fits ts hfit]
  · intro h
    exact toUInt16_of_inRange x h.1 h.2
  · intro h
    exact toUInt16_of_inRange y h.1 h.2
  · decide
  · decide

/-- An instance: `{7, 3}` stored, the button going down at `(640, 480)`. -/
theorem end_to_end_emission_witness :
    decrementFits ⟨7, 3⟩ ∧
      (loopIteration
        (run initialState
          [Action.newImage ⟨7, 3⟩, Action.mouse EVENT_LBUTTONDOWN 640 480])).sent =
      [(⟨640, 480⟩, ⟨7, 2⟩)] :=
  ⟨by decide, by
    have h := (end_to_end_emission ⟨7, 3⟩ 640 480).2.1 (by decide)
    rw [h]
    decide⟩

/-- C8 (as stated) fails: after the image callback stored `{100, 0}` and the
left button went down at `(-1, 70000)`, the loop iteration sends one
annotation, with azimuth 65535 and zenith 4464, not -1 and 70000. -/
theorem end_to_end_emission_counterexample :
    (loopIteration
        (run initialState
          [Action.newImage ⟨100, 0⟩, Action.mouse EVENT_LBUTTONDOWN (-1) 70000])).sent =
      [(⟨65535, 4464⟩, ⟨99, 999999⟩)] ∧
      ((65535 : Nat) : Int) ≠ -1 ∧ ((4464 : Nat) : Int) ≠ 70000 := by
  decide

/-- C9: when the left button never goes down, no annotation is sent: from the
initial state, after any sequence of mouse callbacks other than the left
button going down, image callbacks and critical sections of the loop body, the
list of sent annotations is empty and the stored time stamp is the one stored
by the last image callback (the zero time stamp when there was none). -/
theorem no_buttonDown_no_emission (trace : List Action)
    (htrace : ∀ a ∈ trace, a.isButtonDown = false) :
    (run initialState trace).sent = [] ∧
      (run initialState trace).lastSampleTimeStamp = lastObserved ⟨0, 0⟩ trace := by
  have h := run_idle trace initialState rfl rfl htrace
  exact ⟨h.1, h.2.1⟩

/-- An instance: two loop iterations with image callbacks, a move and a button
release, and no button press. -/
theorem no_buttonDown_no_emission_witness :
    (∀ a ∈ [Action.newImage ⟨5, 0⟩, Action.mouse EVENT_MOUSEMOVE 3 4, Action.read,
        Action.emit, Action.mouse EVENT_LBUTTONUP 3 4, Action.newImage ⟨6, 0⟩, Action.read,
        Action.emit], a.isButtonDown = false) ∧
      (run initialState [Action.newImage ⟨5, 0⟩, Action.mouse EVENT_MOUSEMOVE 3 4, Action.read,
        Action.emit, Action.mouse EVENT_LBUTTONUP 3 4, Action.newImage ⟨6, 0⟩, Action.read,
        Action.emit]).sent = [] ∧
      (run initialState [Action.newImage ⟨5, 0⟩, Action.mouse EVENT_MOUSEMOVE 3 4, Action.read,
        Action.emit, Action.mouse EVENT_LBUTTONUP 3 4, Action.newImage ⟨6, 0⟩, Action.read,
        Action.emit]).lastSampleTimeStamp =
        lastObserved ⟨0, 0⟩ [Action.newImage ⟨5, 0⟩, Action.mouse EVENT_MOUSEMOVE 3 4,
          Action.read, Action.emit, Action.mouse EVENT_LBUTTONUP 3 4, Action.newImage ⟨6, 0⟩,
          Action.read, Action.emit] :=
  ⟨by decide,
   no_buttonDown_no_emission [Action.newImage ⟨5, 0⟩, Action.mouse EVENT_MOUSEMOVE 3 4,
     Action.read, Action.emit, Action.mouse EVENT_LBUTTONUP 3 4, Action.newImage ⟨6, 0⟩,
     Action.read, Action.emit] (by decide)⟩

/-! ## Exit code -/

/-- When one of the four options is absent, `main` returns the exit code 1 and
sends nothing. -/
theorem main_missing_option (commandlineArguments : String → Option String)
    (valid : String → Bool) (frames : List Frame)
    (h : commandlineArguments "cid" = none ∨ commandlineArguments "name" = none ∨
      commandlineArguments "width" = none ∨ commandlineArguments "height" = none) :
    main commandlineArguments valid frames = some { retCode := 1, sent := [] } := by
  have hc : count commandlineArguments "cid" = 0 ∨ count commandlineArguments "name" = 0 ∨
      count commandlineArguments "width" = 0 ∨ count commandlineArguments "height" = 0 := by
    rcases h with h | h | h | h <;> simp [count, h]
  simp only [main, if_pos hc]

/-- When the four options are given, the numbers parse and the shared memory
is attached, `main` returns the exit code 0 once the session has ended. -/
theorem main_attached (commandlineArguments : String → Option String)
    (valid : String → Bool) (frames : List Frame) (cid name width height : String)
    (hcid : commandlineArguments "cid" = some cid)
    (hname : commandlineArguments "name" = some name)
    (hwidth : commandlineArguments "width" = some width)
    (hheight : commandlineArguments "height" = some height)
    (hc : (stoi cid).isSome = true) (hw : (stoi width).isSome = true)
    (hh : (stoi height).isSome = true) (hvalid : valid name = true) :
    main commandlineArguments valid frames =
      some { retCode := 0,
             sent := (run initialState (frames.map Frame.actions).flatten).sent } := by
  obtain ⟨c, hc⟩ := Option.isSome_iff_exists.mp hc
  obtain ⟨w, hw⟩ := Option.isSome_iff_exists.mp hw
  obtain ⟨h, hh⟩ := Option.isSome_iff_exists.mp hh
  simp [main, count, hcid, hname, hwidth, hheight, hc, hw, hh, hvalid]

/-- When the four options are given, width and height parse and the shared
memory cannot be attached, `main` returns the exit code 0 and sends nothing. -/
theorem main_attach_failure (commandlineArguments : String → Option String)
    (valid : String → Bool) (frames : List Frame) (cid name width height : String)
    (hcid : commandlineArguments "cid" = some cid)
    (hname : commandlineArguments "name" = some name)
    (hwidth : commandlineArguments "width" = some width)
    (hheight : commandlineArguments "height" = some height)
    (hw : (stoi width).isSome = true) (hh : (stoi height).isSome = true)
    (hvalid : valid name = false) :
    main commandlineArguments valid frames = some { retCode := 0, sent := [] } := by
  obtain ⟨w, hw⟩ := Option.isSome_iff_exists.mp hw
  obtain ⟨h, hh⟩ := Option.isSome_iff_exists.mp hh
  simp [main, count, hcid, hname, hwidth, hheight, hw, hh, hvalid]

/-- C5: with the four options given as in the usage example and a shared
memory that cannot be attached, `main` returns the exit code 0, not 1. -/
theorem main_attach_failure_exit_code :
    main exampleArguments (fun _ => false) [] = some { retCode := 0, sent := [] } ∧
      (main exampleArguments (fun _ => false) []).map Exit.retCode ≠ some 1 := by
  decide

end OpendlvVideoAnnotation
